import Mathlib

/-!
Shallow embedding of the time-windowed usage/activity statistics
aggregation engine of the strata-dashboards backend.  The embedded code
lives in `src/backend/src/usage.rs` and `src/backend/src/activity.rs`;
the two files contain the same aggregation logic (the activity file is a
refactored copy), so one embedding covers both.

Modelling conventions:
* `u64` counters are `Nat` with additions reduced `% 2^64` (release-mode
  wrapping arithmetic);
* timestamps are seconds since the Unix epoch as `Int`; `chrono`
  `Duration` values are seconds as `Int`;
* `HashMap<String, _>` is an association list `List (String × _)` with
  key-based lookup (`getA`) and entry-style update (`updA`), and
  `HashSet<String>` is a duplicate-free `List String`;
* `DateTime::parse_from_rfc3339` is `parseRFC3339`, an executable RFC
  3339 parser returning epoch seconds (fractional seconds are accepted
  and ignored, second 60 is folded into second 59 as chrono folds leap
  seconds into the previous second);
* Rust's stable `sort_by`/`sort_by_key` is `List.insertionSort` with the
  corresponding non-strict relation: a stable sort with respect to a
  total preorder has a unique result, so this is the same list Rust
  produces.
-/

/-- The modulus of Rust `u64` arithmetic. -/
def U64 : Nat := 2 ^ 64

/-! ### Association-list model of `HashMap` / `HashSet` -/

/-- Key lookup with a default, modelling `map.get(k)` with fallback `d`. -/
def getA {α : Type} (k : String) (d : α) : List (String × α) → α
  | [] => d
  | e :: rest => if e.1 = k then e.2 else getA k d rest

/-- `map.entry(k).or_insert(d)` followed by an in-place modification `f`:
updates the first entry with key `k`, or appends `(k, f d)` when the key
is absent. -/
def updA {α : Type} (k : String) (d : α) (f : α → α) : List (String × α) → List (String × α)
  | [] => [(k, f d)]
  | e :: rest => if e.1 = k then (e.1, f e.2) :: rest else e :: updA k d f rest

/-- `HashSet::insert`: add `x` unless already present. -/
def insertList (x : String) (l : List String) : List String :=
  if x ∈ l then l else x :: l

/-- `map.get_mut(k).unwrap().insert(x)` on a map of sets: inserts into the
entry with key `k`; the key is always present at every call site (the map
is pre-initialized with every period). -/
def insMem (k x : String) : List (String × List String) → List (String × List String)
  | [] => []
  | e :: rest => if e.1 = k then (e.1, insertList x e.2) :: rest else e :: insMem k x rest

/-! ### Calendar arithmetic (model of the `chrono` operations used) -/

/-- Gregorian leap-year rule. -/
def isLeapYear (y : Int) : Bool :=
  (y % 4 == 0 && y % 100 != 0) || y % 400 == 0

/-- Length of month `m` (1-based) given the leap flag of the year. -/
def daysInMonthFlag (leap : Bool) : Nat → Nat
  | 1 => 31
  | 2 => if leap then 29 else 28
  | 3 => 31
  | 4 => 30
  | 5 => 31
  | 6 => 30
  | 7 => 31
  | 8 => 31
  | 9 => 30
  | 10 => 31
  | 11 => 30
  | 12 => 31
  | _ => 0

def daysInMonth (y : Int) (m : Nat) : Nat := daysInMonthFlag (isLeapYear y) m

/-- Day-of-year (1-based) of a `(month, day)` pair, given the leap flag:
the sum of the lengths of the preceding months plus the day. -/
def ordinalFlag (leap : Bool) (m d : Nat) : Nat :=
  ((List.range m).map (daysInMonthFlag leap)).sum + d

/-- The date part of a `chrono::DateTime<Utc>`. -/
structure UtcDate where
  year : Int
  month : Nat
  day : Nat
deriving DecidableEq

/-- `chrono`'s `Datelike::ordinal`: the day of the year, 1-based. -/
def UtcDate.ordinal (dt : UtcDate) : Nat :=
  ordinalFlag (isLeapYear dt.year) dt.month dt.day

/-- A calendar-valid `(year, month, day)` triple. -/
def validDate (y : Int) (m d : Nat) : Prop :=
  1 ≤ m ∧ m ≤ 12 ∧ 1 ≤ d ∧ d ≤ daysInMonth y m

instance (y : Int) (m d : Nat) : Decidable (validDate y m d) := by
  unfold validDate; infer_instance

/-- Days from 1970-01-01 to the given civil date (Howard Hinnant's
`days_from_civil` algorithm, used here to model `chrono`'s conversion of
a parsed calendar date to a timestamp). -/
def daysFromCivil (y : Int) (m d : Nat) : Int :=
  let y1 : Int := if m ≤ 2 then y - 1 else y
  let era : Int := (if 0 ≤ y1 then y1 else y1 - 399) / 400
  let yoe : Int := y1 - era * 400
  let mp : Nat := (m + 9) % 12
  let doy : Int := ((153 * mp + 2) / 5 + d - 1 : Nat)
  let doe : Int := yoe * 365 + yoe / 4 - yoe / 100 + doy
  era * 146097 + doe - 719468

/-! ### RFC 3339 timestamp parsing (model of `DateTime::parse_from_rfc3339`) -/

def digitVal? (c : Char) : Option Nat :=
  if c.isDigit then some (c.toNat - 48) else none

def read2 : List Char → Option (Nat × List Char)
  | c1 :: c2 :: rest => do
    let d1 ← digitVal? c1
    let d2 ← digitVal? c2
    pure (10 * d1 + d2, rest)
  | _ => none

def read4 : List Char → Option (Nat × List Char)
  | c1 :: c2 :: c3 :: c4 :: rest => do
    let d1 ← digitVal? c1
    let d2 ← digitVal? c2
    let d3 ← digitVal? c3
    let d4 ← digitVal? c4
    pure (1000 * d1 + 100 * d2 + 10 * d3 + d4, rest)
  | _ => none

def expectChar (c : Char) : List Char → Option (List Char)
  | c2 :: rest => if c2 = c then some rest else none
  | [] => none

def skipDigits : List Char → List Char
  | c :: rest => if c.isDigit then skipDigits rest else c :: rest
  | [] => []

/-- Optional fractional-seconds part: a dot must be followed by at least
one digit; the value is ignored. -/
def readFrac : List Char → Option (List Char)
  | '.' :: rest =>
    match rest with
    | c :: _ => if c.isDigit then some (skipDigits rest) else none
    | [] => none
  | cs => some cs

/-- Timezone offset: `Z`/`z`, or `±hh:mm`, returned in seconds. -/
def readOffset : List Char → Option (Int × List Char)
  | 'Z' :: rest => some (0, rest)
  | 'z' :: rest => some (0, rest)
  | '+' :: rest => do
    let (h, rest) ← read2 rest
    let rest ← expectChar ':' rest
    let (m, rest) ← read2 rest
    if h ≤ 23 ∧ m ≤ 59 then pure (((h * 60 + m) * 60 : Nat), rest) else none
  | '-' :: rest => do
    let (h, rest) ← read2 rest
    let rest ← expectChar ':' rest
    let (m, rest) ← read2 rest
    if h ≤ 23 ∧ m ≤ 59 then pure ((-(((h * 60 + m) * 60 : Nat) : Int)), rest) else none
  | _ => none

/-- The `full-date` part `YYYY-MM-DD`. -/
def parseDatePart (cs : List Char) : Option (Nat × Nat × Nat × List Char) :=
  match read4 cs with
  | none => none
  | some (y, cs1) =>
    match expectChar '-' cs1 with
    | none => none
    | some cs2 =>
      match read2 cs2 with
      | none => none
      | some (mo, cs3) =>
        match expectChar '-' cs3 with
        | none => none
        | some cs4 =>
          match read2 cs4 with
          | none => none
          | some (d, cs5) => some (y, mo, d, cs5)

/-- The `partial-time` part `hh:mm:ss`. -/
def parseTimePart (cs : List Char) : Option (Nat × Nat × Nat × List Char) :=
  match read2 cs with
  | none => none
  | some (hh, cs1) =>
    match expectChar ':' cs1 with
    | none => none
    | some cs2 =>
      match read2 cs2 with
      | none => none
      | some (mi, cs3) =>
        match expectChar ':' cs3 with
        | none => none
        | some cs4 =>
          match read2 cs4 with
          | none => none
          | some (ss, cs5) => some (hh, mi, ss, cs5)

/-- The date/time separator `T` (or lowercase `t`). -/
def parseSep (cs : List Char) : Option (List Char) :=
  match cs with
  | 'T' :: rest => some rest
  | 't' :: rest => some rest
  | _ => none

/-- `DateTime::parse_from_rfc3339` followed by `.with_timezone(&Utc)`,
returning seconds since the Unix epoch, or `none` when the string is not
a valid RFC 3339 date-time. -/
def parseRFC3339 (s : String) : Option Int :=
  match parseDatePart s.data with
  | none => none
  | some (y, mo, d, cs1) =>
    match parseSep cs1 with
    | none => none
    | some cs2 =>
      match parseTimePart cs2 with
      | none => none
      | some (hh, mi, ss, cs3) =>
        match readFrac cs3 with
        | none => none
        | some cs4 =>
          match readOffset cs4 with
          | none => none
          | some (off, cs5) =>
            if cs5 = [] ∧ 1 ≤ mo ∧ mo ≤ 12 ∧ 1 ≤ d ∧ d ≤ daysInMonth (y : Int) mo
                ∧ hh ≤ 23 ∧ mi ≤ 59 ∧ ss ≤ 60 then
              some (86400 * daysFromCivil (y : Int) mo d + 3600 * (hh : Int) + 60 * (mi : Int)
                + (if ss = 60 then (59 : Int) else (ss : Int)) - off)
            else none

/-! ### Time windows (`TimeWindow` and `to_duration`) -/

/-- `chrono::Duration::days(n)` in seconds. -/
def durationDays (n : Int) : Int := n * 86400

inductive TimeWindow where
  | last24Hours
  | last30Days
  | yearToDate
deriving DecidableEq

/-- `TimeWindow::to_duration` (usage.rs lines 50-60, activity.rs lines
40-50): one day, thirty days, or `Duration::days(now.ordinal())`. -/
def TimeWindow.to_duration (w : TimeWindow) (now : UtcDate) : Int :=
  match w with
  | .last24Hours => durationDays 1
  | .last30Days => durationDays 30
  | .yearToDate => durationDays (UtcDate.ordinal now)

/-! ### Records and cycle state -/

/-- A decoded user operation (struct `UserOp`). -/
structure UserOp where
  sender : String
  gas_used : Nat
  timestamp : String
deriving DecidableEq

/-- A decoded account (struct `Account`). -/
structure Account where
  address : String
  creation_timestamp : String
  gas_used : Nat
deriving DecidableEq

/-- The configured output labels of the three statistics
(`usage_stat_names` from the keys file; the spec requires the labels to
be pairwise distinct). -/
structure StatsKeys where
  userOpsName : String
  gasUsedName : String
  uniqueActiveAccountsName : String
deriving DecidableEq

/-- The mutable aggregation state of one refresh cycle: the nested
`stats` map (stat label → period label → u64), the per-period unique
sender sets, and the per-sender 24h gas tally. -/
structure CycleState where
  stats : List (String × List (String × Nat))
  uniq : List (String × List String)
  gasUsage : List (String × Nat)
deriving DecidableEq

/-- `stats.entry(n).or_default().entry(p).or_insert(0) += 1` with u64
wrapping. -/
def bump2 (n p : String) (st : List (String × List (String × Nat))) :
    List (String × List (String × Nat)) :=
  updA n [] (updA p 0 (fun v => (v + 1) % U64)) st

/-- Read the (n, p) counter of the nested stats map, defaulting to 0. -/
def getD2 (n p : String) (st : List (String × List (String × Nat))) : Nat :=
  getA p 0 (getA n [] st)

/-- One iteration of the `for (period, duration) in &time_windows` loop
over a single record (usage.rs lines 255-270): when the record's
timestamp is within the window, both the user-ops counter and the
gas-used counter of that period are incremented by one, and the sender is
inserted into the period's unique-account set. -/
def stepWindow (keys : StatsKeys) (now opTime : Int) (sender : String)
    (s : CycleState) (pd : String × Int) : CycleState :=
  if now - pd.2 ≤ opTime then
    { s with
      stats := bump2 keys.gasUsedName pd.1 (bump2 keys.userOpsName pd.1 s.stats),
      uniq := insMem pd.1 sender s.uniq }
  else s

/-- Processing of one user-operation record (usage.rs lines 253-275,
activity.rs lines 220-253): skip the record when its timestamp does not
parse; otherwise run the window loop and, when the record is within the
last day, add its gas to the per-sender tally. -/
def processEntry (keys : StatsKeys) (windows : List (String × Int)) (now : Int)
    (s : CycleState) (e : UserOp) : CycleState :=
  match parseRFC3339 e.timestamp with
  | none => s
  | some opTime =>
    let s1 := windows.foldl (stepWindow keys now opTime e.sender) s
    if now - durationDays 1 ≤ opTime then
      { s1 with gasUsage := updA e.sender 0 (fun v => (v + e.gas_used) % U64) s1.gasUsage }
    else s1

/-- One page of the operations source. -/
structure UserOpsPage where
  user_ops : List UserOp
  next_page_token : Option String
deriving DecidableEq

/-- One page of the accounts source. -/
structure AccountsPage where
  accounts : List Account
  next_page_token : Option String
deriving DecidableEq

def processPage (keys : StatsKeys) (windows : List (String × Int)) (now : Int)
    (s : CycleState) (pg : UserOpsPage) : CycleState :=
  pg.user_ops.foldl (processEntry keys windows now) s

/-- The `while more_items` drain loop over the operations source
(usage.rs lines 242-287): each element of the list is the result of one
`fetch_user_ops` call; an `error` stops pagination keeping the state
accumulated so far, an `ok` page is processed and pagination continues
exactly when the page carries a next-page token. -/
def drainUserOps (keys : StatsKeys) (windows : List (String × Int)) (now : Int) :
    CycleState → List (Except String UserOpsPage) → CycleState
  | s, [] => s
  | s, (Except.error _) :: _ => s
  | s, (Except.ok pg) :: rest =>
    let s1 := processPage keys windows now s pg
    match pg.next_page_token with
    | some _ => drainUserOps keys windows now s1 rest
    | none => s1

/-- The operation records the drain loop actually consumes from a given
sequence of fetch results. -/
def consumedUserOps : List (Except String UserOpsPage) → List UserOp
  | [] => []
  | (Except.error _) :: _ => []
  | (Except.ok pg) :: rest =>
    pg.user_ops ++ (match pg.next_page_token with
      | some _ => consumedUserOps rest
      | none => [])

/-- Whether a record falls inside a window of length `dur`: its timestamp
parses and `now - dur ≤ timestamp`. -/
def inWindowB (now dur : Int) (e : UserOp) : Bool :=
  match parseRFC3339 e.timestamp with
  | some t => decide (now - dur ≤ t)
  | none => false

/-- The zero-initialization of the stats map (usage.rs lines 229-234):
for every period and every stat name, insert a zero counter. -/
def initStats (keys : StatsKeys) (windows : List (String × Int)) :
    List (String × List (String × Nat)) :=
  windows.foldl
    (fun st pd =>
      [keys.userOpsName, keys.gasUsedName, keys.uniqueActiveAccountsName].foldl
        (fun st2 n => updA n [] (updA pd.1 0 (fun _ => 0)) st2) st)
    []

/-- The state at the start of a cycle: zeroed stats, one empty unique-set
per period (usage.rs lines 236-240), empty gas tally (line 220). -/
def initCycle (keys : StatsKeys) (windows : List (String × Int)) : CycleState :=
  { stats := initStats keys windows
    uniq := windows.map (fun pd => (pd.1, []))
    gasUsage := [] }

/-- After the drain, store each period's unique-account count into the
stats map (usage.rs lines 289-297). -/
def storeUniqueCounts (keys : StatsKeys) (s : CycleState) : CycleState :=
  { s with stats :=
      (s.uniq.foldl
        (fun st e => updA keys.uniqueActiveAccountsName []
          (updA e.1 0 (fun _ => e.2.length)) st) s.stats) }

/-! ### Ranking selectors -/

/-- The sort key of the most-recently-created ranking: the parsed
creation timestamp, defaulting to `now` when parsing fails (usage.rs
lines 315-324). -/
def accountTime (now : Int) (a : Account) : Int :=
  (parseRFC3339 a.creation_timestamp).getD now

/-- The per-page most-recently-created selection (usage.rs lines
308-327): drop accounts with an empty creation timestamp, stably sort
descending by `accountTime`, take the first five. -/
def select5 (now : Int) (accs : List Account) : List Account :=
  ((accs.filter (fun a => decide (a.creation_timestamp ≠ ""))).insertionSort
    (fun a b => accountTime now b ≤ accountTime now a)).take 5

/-- The drain loop over the accounts source (usage.rs lines 299-340):
each `ok` page recomputes the selection from that page's accounts and
overwrites the stored value; an `error` stops pagination keeping the
current value. -/
def drainAccounts (now : Int) : List Account → List (Except String AccountsPage) → List Account
  | sel, [] => sel
  | sel, (Except.error _) :: _ => sel
  | _sel, (Except.ok pg) :: rest =>
    let sel1 := select5 now pg.accounts
    match pg.next_page_token with
    | some _ => drainAccounts now sel1 rest
    | none => sel1

/-- The top-gas-consumers selection (usage.rs lines 342-351): one
synthetic account per tallied sender, stably sorted ascending by the gas
looked up in the tally, reversed, truncated to five. -/
def topGasConsumers (gas : List (String × Nat)) : List Account :=
  let accs := gas.map (fun e =>
    ({ address := e.1, creation_timestamp := "", gas_used := e.2 } : Account))
  ((accs.insertionSort (fun a b => getA a.address 0 gas ≤ getA b.address 0 gas)).reverse).take 5

/-- Modelled from the spec: the most-recently-created selection as §4.4
describes it, applied to the whole fetched account set (the source code
has no such accumulated-set selection; it recomputes per page): filter
out empty creation timestamps, sort descending by the parsed timestamp
with unparseable timestamps treated as `now`, take the first five. -/
def specRecentSelection (now : Int) (accs : List Account) : List Account :=
  ((accs.filter (fun a => decide (a.creation_timestamp ≠ ""))).insertionSort
    (fun a b => accountTime now b ≤ accountTime now a)).take 5

/-! ### Page decoding (serde deserializers) -/

/-- The subset of `serde_json::Value` needed by the decoders. -/
inductive Json where
  | null
  | bool (b : Bool)
  | num (n : Int)
  | str (s : String)
  | arr (elts : List Json)
  | obj (fields : List (String × Json))

/-- First field with the given key in an object's field list. -/
def Json.getField? (fields : List (String × Json)) (k : String) : Option Json :=
  match fields with
  | [] => none
  | e :: rest => if e.1 = k then some e.2 else Json.getField? rest k

/-- `Value::get(key)`: field lookup on objects, `None` otherwise. -/
def Json.get? : Json → String → Option Json
  | .obj fields, k => Json.getField? fields k
  | _, _ => none

/-- `Value::as_str`. -/
def Json.asStr? : Json → Option String
  | .str s => some s
  | _ => none

/-- `get_address_hash` (usage.rs lines 359-371): extract the `hash`
string field of the given `address` value, a missing-field decode error
otherwise. -/
def get_address_hash (v : Json) : Except String String :=
  match v.get? "hash" >>= Json.asStr? with
  | some h => Except.ok h
  | none => Except.error "missing field address.hash"

/-- Rust `str::parse::<u64>`: optional leading `+`, at least one digit,
nothing else, and the value must fit in 64 bits. -/
def parseU64 (s : String) : Option Nat :=
  let cs := match s.data with
    | '+' :: rest => rest
    | cs => cs
  match cs with
  | [] => none
  | _ =>
    match readDigits cs 0 with
    | some n => if n < U64 then some n else none
    | none => none
where
  readDigits : List Char → Nat → Option Nat
    | [], acc => some acc
    | c :: cs2, acc =>
      match digitVal? c with
      | some d => readDigits cs2 (acc * 10 + d)
      | none => none

/-- `convert_to_u64` (usage.rs lines 374-380): the value must be a JSON
string that parses as `u64`, anything else is a decode error. -/
def convert_to_u64 (v : Json) : Except String Nat :=
  match v with
  | .str s =>
    match parseU64 s with
    | some n => Except.ok n
    | none => Except.error "invalid u64 string"
  | _ => Except.error "expected a string"

/-- `from_null_or_string` (usage.rs lines 383-393): a string is returned
as is, null or a missing value yields the empty string, anything else is
a decode error.  (serde only invokes this when the field key is present,
so the `none` branch is unreachable in the derived decoder below.) -/
def from_null_or_string (v : Option Json) : Except String String :=
  match v with
  | some (Json.str s) => Except.ok s
  | some Json.null => Except.ok ""
  | none => Except.ok ""
  | some _ => Except.error "Expected a string or null"

/-- A non-negative JSON number fitting in 64 bits, for the plain
`gas_used: u64` field. -/
def decodeU64Number (v : Json) : Except String Nat :=
  match v with
  | .num n => if 0 ≤ n ∧ n < (U64 : Int) then Except.ok n.toNat
    else Except.error "invalid u64 number"
  | _ => Except.error "expected a number"

/-- A plain JSON string field. -/
def decodeString (v : Json) : Except String String :=
  match v with
  | .str s => Except.ok s
  | _ => Except.error "expected a string"

/-- The serde-derived decoder of `UserOp`: `address` through
`get_address_hash` (required), `fee` through `convert_to_u64` (required),
`timestamp` a required plain string. -/
def decodeUserOp (j : Json) : Except String UserOp := do
  let sender ← match j.get? "address" with
    | some v => get_address_hash v
    | none => Except.error "missing field address"
  let gas ← match j.get? "fee" with
    | some v => convert_to_u64 v
    | none => Except.error "missing field fee"
  let ts ← match j.get? "timestamp" with
    | some v => decodeString v
    | none => Except.error "missing field timestamp"
  Except.ok { sender := sender, gas_used := gas, timestamp := ts }

/-- The serde-derived decoder of `Account`: `address` through
`get_address_hash` (required), `creation_timestamp` through
`from_null_or_string` — applied only when the field key is present, a
field with no key at all is a serde missing-field error since the field
has `deserialize_with` but no `default` — and `gas_used` a u64 number
defaulting to 0 when absent. -/
def decodeAccount (j : Json) : Except String Account := do
  let addr ← match j.get? "address" with
    | some v => get_address_hash v
    | none => Except.error "missing field address"
  let ts ← match j.get? "creation_timestamp" with
    | some v => from_null_or_string (some v)
    | none => Except.error "missing field creation_timestamp"
  let gas ← match j.get? "gas_used" with
    | some v => decodeU64Number v
    | none => Except.ok 0
  Except.ok { address := addr, creation_timestamp := ts, gas_used := gas }

/-- Decode a list of records, failing on the first record that fails
(the page-level `serde_json::from_value::<Vec<_>>`). -/
def decodeListWith {α : Type} (f : Json → Except String α) :
    List Json → Except String (List α)
  | [] => Except.ok []
  | j :: rest =>
    match f j with
    | Except.error e => Except.error e
    | Except.ok a =>
      match decodeListWith f rest with
      | Except.error e => Except.error e
      | Except.ok as2 => Except.ok (a :: as2)

deriving instance DecidableEq for Except

/-! ### Spec-side day-of-year definition (for the year-to-date claim) -/

/-- The days of a year in calendar order, as `(month, day)` pairs. -/
def yearDays (leap : Bool) : List (Nat × Nat) :=
  (List.range 12).flatMap (fun i =>
    (List.range (daysInMonthFlag leap (i + 1))).map (fun j => (i + 1, j + 1)))

/-- The ordinal day number as the spec phrases it: among the days of the
year listed in calendar order, the count of those up to and including
the given date. -/
def specOrdinalFlag (leap : Bool) (m d : Nat) : Nat :=
  (yearDays leap).countP (fun md => decide (md.1 < m ∨ (md.1 = m ∧ md.2 ≤ d)))

def specOrdinalDay (y : Int) (m d : Nat) : Nat :=
  specOrdinalFlag (isLeapYear y) m d

/-! ## Lemmas about the association-list operations -/

theorem getA_updA {α : Type} (k q : String) (d : α) (f : α → α) :
    ∀ m : List (String × α),
      getA q d (updA k d f m) = if q = k then f (getA k d m) else getA q d m := by
  intro m
  induction m with
  | nil =>
    by_cases h : q = k
    · simp [updA, getA, h]
    · have h2 : ¬ k = q := fun hh => h hh.symm
      simp [updA, getA, h, h2]
  | cons e rest ih =>
    by_cases h1 : e.1 = k
    · by_cases h2 : q = k
      · simp [updA, getA, h1, h2]
      · have h3 : ¬ k = q := fun hh => h2 hh.symm
        simp [updA, getA, h1, h2, h3]
    · by_cases h2 : e.1 = q
      · have hqk : ¬ q = k := fun hh => h1 (hh ▸ h2)
        simp [updA, getA, h1, h2, hqk]
      · simp [updA, getA, h1, h2, ih]

theorem getA_insMem_ne (k x q : String) (h : q ≠ k) :
    ∀ m, getA q [] (insMem k x m) = getA q [] m := by
  intro m
  induction m with
  | nil => rfl
  | cons e rest ih =>
    by_cases h1 : e.1 = k
    · have h2 : ¬ k = q := fun hh => h hh.symm
      simp [insMem, getA, h1, h2]
    · simp [insMem, getA, h1, ih]

theorem getA_insMem_self (k x : String) :
    ∀ m, k ∈ m.map Prod.fst →
      getA k [] (insMem k x m) = insertList x (getA k [] m) := by
  intro m
  induction m with
  | nil => intro h; cases h
  | cons e rest ih =>
    intro hmem
    by_cases h1 : e.1 = k
    · simp [insMem, getA, h1]
    · have hr : k ∈ rest.map Prod.fst := by
        rcases List.mem_cons.mp hmem with h | h
        · exact absurd h.symm h1
        · exact h
      simp [insMem, getA, h1, ih hr]

theorem keys_insMem (k x : String) :
    ∀ m, (insMem k x m).map Prod.fst = m.map Prod.fst := by
  intro m
  induction m with
  | nil => rfl
  | cons e rest ih =>
    by_cases h1 : e.1 = k
    · simp [insMem, h1]
    · simp [insMem, h1, ih]

theorem getD2_bump2 (n p q r : String) (st : List (String × List (String × Nat))) :
    getD2 q r (bump2 n p st)
      = if q = n ∧ r = p then (getD2 n p st + 1) % U64 else getD2 q r st := by
  unfold getD2 bump2
  rw [getA_updA]
  by_cases h1 : q = n
  · subst h1
    rw [if_pos rfl, getA_updA]
    by_cases h2 : r = p
    · subst h2
      rw [if_pos rfl, if_pos ⟨rfl, rfl⟩]
    · rw [if_neg h2, if_neg (fun hc => h2 hc.2)]
  · rw [if_neg h1, if_neg (fun hc => h1 hc.1)]

/-! ## Lemmas about one window-loop iteration (`stepWindow`) -/

theorem stepWindow_gas (keys : StatsKeys) (now t : Int) (snd : String)
    (s : CycleState) (pd : String × Int) :
    (stepWindow keys now t snd s pd).gasUsage = s.gasUsage := by
  unfold stepWindow
  split <;> rfl

theorem stepWindow_uniq_keys (keys : StatsKeys) (now t : Int) (snd : String)
    (s : CycleState) (pd : String × Int) :
    (stepWindow keys now t snd s pd).uniq.map Prod.fst = s.uniq.map Prod.fst := by
  unfold stepWindow
  split
  · exact keys_insMem pd.1 snd s.uniq
  · rfl

theorem stepWindow_stats_ne (keys : StatsKeys) (now t : Int) (snd : String)
    (s : CycleState) (pd : String × Int) (q p : String) (hne : pd.1 ≠ p) :
    getD2 q p (stepWindow keys now t snd s pd).stats = getD2 q p s.stats := by
  unfold stepWindow
  split
  · dsimp only
    rw [getD2_bump2, if_neg (fun hc => hne hc.2.symm),
      getD2_bump2, if_neg (fun hc => hne hc.2.symm)]
  · rfl

theorem stepWindow_uniq_ne (keys : StatsKeys) (now t : Int) (snd : String)
    (s : CycleState) (pd : String × Int) (p : String) (hne : p ≠ pd.1) :
    getA p [] (stepWindow keys now t snd s pd).uniq = getA p [] s.uniq := by
  unfold stepWindow
  split
  · dsimp only
    exact getA_insMem_ne pd.1 snd p hne s.uniq
  · rfl

theorem stepWindow_stats_self (keys : StatsKeys) (now t : Int) (snd : String)
    (s : CycleState) (p : String) (dur : Int)
    (hne : keys.userOpsName ≠ keys.gasUsedName) :
    getD2 keys.userOpsName p (stepWindow keys now t snd s (p, dur)).stats
      = if now - dur ≤ t then (getD2 keys.userOpsName p s.stats + 1) % U64
        else getD2 keys.userOpsName p s.stats := by
  by_cases h : now - dur ≤ t
  · simp only [stepWindow, h, if_pos, if_true]
    rw [getD2_bump2, if_neg (fun hc => hne hc.1), getD2_bump2, if_pos ⟨rfl, rfl⟩]
  · simp only [stepWindow, h, if_false]

theorem stepWindow_uniq_self (keys : StatsKeys) (now t : Int) (snd : String)
    (s : CycleState) (p : String) (dur : Int)
    (hkey : p ∈ s.uniq.map Prod.fst) :
    getA p [] (stepWindow keys now t snd s (p, dur)).uniq
      = if now - dur ≤ t then insertList snd (getA p [] s.uniq)
        else getA p [] s.uniq := by
  by_cases h : now - dur ≤ t
  · simp only [stepWindow, h, if_pos, if_true]
    exact getA_insMem_self p snd s.uniq hkey
  · simp only [stepWindow, h, if_false]

/-! ## Lemmas about the fold over the window list -/

theorem foldl_stepWindow_stats_not_mem (keys : StatsKeys) (now t : Int) (snd : String) :
    ∀ (ws : List (String × Int)) (s : CycleState) (q p : String), p ∉ ws.map Prod.fst →
      getD2 q p ((ws.foldl (stepWindow keys now t snd) s)).stats = getD2 q p s.stats := by
  intro ws
  induction ws with
  | nil => intro s q p _; rfl
  | cons w ws ih =>
    intro s q p hp
    have hp1 : w.1 ≠ p := fun hh => hp (by simp [hh])
    have hp2 : p ∉ ws.map Prod.fst := fun hh => hp (by simp [hh])
    rw [List.foldl_cons, ih _ q p hp2, stepWindow_stats_ne keys now t snd s w q p hp1]

theorem foldl_stepWindow_uniq_not_mem (keys : StatsKeys) (now t : Int) (snd : String) :
    ∀ (ws : List (String × Int)) (s : CycleState) (p : String), p ∉ ws.map Prod.fst →
      getA p [] ((ws.foldl (stepWindow keys now t snd) s)).uniq = getA p [] s.uniq := by
  intro ws
  induction ws with
  | nil => intro s p _; rfl
  | cons w ws ih =>
    intro s p hp
    have hp1 : p ≠ w.1 := fun hh => hp (by simp [hh])
    have hp2 : p ∉ ws.map Prod.fst := fun hh => hp (by simp [hh])
    rw [List.foldl_cons, ih _ p hp2, stepWindow_uniq_ne keys now t snd s w p hp1]

theorem foldl_stepWindow_uniq_keys (keys : StatsKeys) (now t : Int) (snd : String) :
    ∀ (ws : List (String × Int)) (s : CycleState),
      ((ws.foldl (stepWindow keys now t snd) s)).uniq.map Prod.fst = s.uniq.map Prod.fst := by
  intro ws
  induction ws with
  | nil => intro s; rfl
  | cons w ws ih =>
    intro s
    rw [List.foldl_cons, ih, stepWindow_uniq_keys]

theorem foldl_stepWindow_gas (keys : StatsKeys) (now t : Int) (snd : String) :
    ∀ (ws : List (String × Int)) (s : CycleState),
      ((ws.foldl (stepWindow keys now t snd) s)).gasUsage = s.gasUsage := by
  intro ws
  induction ws with
  | nil => intro s; rfl
  | cons w ws ih =>
    intro s
    rw [List.foldl_cons, ih, stepWindow_gas]

theorem foldl_stepWindow_stats_mem (keys : StatsKeys) (now t : Int) (snd : String)
    (hne : keys.userOpsName ≠ keys.gasUsedName) :
    ∀ (ws : List (String × Int)) (s : CycleState) (p : String) (dur : Int),
      (p, dur) ∈ ws → (ws.map Prod.fst).Nodup →
      getD2 keys.userOpsName p ((ws.foldl (stepWindow keys now t snd) s)).stats
        = if now - dur ≤ t then (getD2 keys.userOpsName p s.stats + 1) % U64
          else getD2 keys.userOpsName p s.stats := by
  intro ws
  induction ws with
  | nil => intro s p dur h _; cases h
  | cons w ws ih =>
    intro s p dur hmem hnd
    rw [List.foldl_cons]
    rcases List.mem_cons.mp hmem with heq | htail
    · subst heq
      have hnotmem : p ∉ ws.map Prod.fst := by
        have := (List.nodup_cons.mp hnd).1
        simpa using this
      rw [foldl_stepWindow_stats_not_mem keys now t snd ws _ _ p hnotmem,
        stepWindow_stats_self keys now t snd s p dur hne]
    · have hw1 : w.1 ≠ p := by
        intro hh
        have hpmem : p ∈ ws.map Prod.fst := by
          have : (p, dur).1 ∈ ws.map Prod.fst := List.mem_map_of_mem Prod.fst htail
          simpa using this
        exact (List.nodup_cons.mp hnd).1 (hh ▸ hpmem)
      rw [ih _ p dur htail (List.nodup_cons.mp hnd).2,
        stepWindow_stats_ne keys now t snd s w keys.userOpsName p hw1]

theorem foldl_stepWindow_uniq_mem (keys : StatsKeys) (now t : Int) (snd : String) :
    ∀ (ws : List (String × Int)) (s : CycleState) (p : String) (dur : Int),
      (p, dur) ∈ ws → (ws.map Prod.fst).Nodup → p ∈ s.uniq.map Prod.fst →
      getA p [] ((ws.foldl (stepWindow keys now t snd) s)).uniq
        = if now - dur ≤ t then insertList snd (getA p [] s.uniq)
          else getA p [] s.uniq := by
  intro ws
  induction ws with
  | nil => intro s p dur h _ _; cases h
  | cons w ws ih =>
    intro s p dur hmem hnd hkey
    rw [List.foldl_cons]
    rcases List.mem_cons.mp hmem with heq | htail
    · subst heq
      have hnotmem : p ∉ ws.map Prod.fst := by
        have := (List.nodup_cons.mp hnd).1
        simpa using this
      rw [foldl_stepWindow_uniq_not_mem keys now t snd ws _ p hnotmem,
        stepWindow_uniq_self keys now t snd s p dur hkey]
    · have hw1 : p ≠ w.1 := by
        intro hh
        have hpmem : p ∈ ws.map Prod.fst := by
          have : (p, dur).1 ∈ ws.map Prod.fst := List.mem_map_of_mem Prod.fst htail
          simpa using this
        exact (List.nodup_cons.mp hnd).1 (hh ▸ hpmem)
      have hkey2 : p ∈ (stepWindow keys now t snd s w).uniq.map Prod.fst := by
        rw [stepWindow_uniq_keys]
        exact hkey
      rw [ih _ p dur htail (List.nodup_cons.mp hnd).2 hkey2,
        stepWindow_uniq_ne keys now t snd s w p hw1]

/-! ## Lemmas about `processEntry` -/

theorem processEntry_parse_none (keys : StatsKeys) (ws : List (String × Int)) (now : Int)
    (s : CycleState) (e : UserOp) (hp : parseRFC3339 e.timestamp = none) :
    processEntry keys ws now s e = s := by
  simp only [processEntry, hp]

theorem processEntry_stats (keys : StatsKeys) (ws : List (String × Int)) (now : Int)
    (s : CycleState) (e : UserOp) (p : String) (dur t : Int)
    (hp : parseRFC3339 e.timestamp = some t)
    (hmem : (p, dur) ∈ ws) (hnd : (ws.map Prod.fst).Nodup)
    (hne : keys.userOpsName ≠ keys.gasUsedName) :
    getD2 keys.userOpsName p (processEntry keys ws now s e).stats
      = if now - dur ≤ t then (getD2 keys.userOpsName p s.stats + 1) % U64
        else getD2 keys.userOpsName p s.stats := by
  simp only [processEntry, hp]
  by_cases hg : now - durationDays 1 ≤ t
  · rw [if_pos hg]
    exact foldl_stepWindow_stats_mem keys now t e.sender hne ws s p dur hmem hnd
  · rw [if_neg hg]
    exact foldl_stepWindow_stats_mem keys now t e.sender hne ws s p dur hmem hnd

theorem processEntry_uniq (keys : StatsKeys) (ws : List (String × Int)) (now : Int)
    (s : CycleState) (e : UserOp) (p : String) (dur t : Int)
    (hp : parseRFC3339 e.timestamp = some t)
    (hmem : (p, dur) ∈ ws) (hnd : (ws.map Prod.fst).Nodup)
    (hkey : p ∈ s.uniq.map Prod.fst) :
    getA p [] (processEntry keys ws now s e).uniq
      = if now - dur ≤ t then insertList e.sender (getA p [] s.uniq)
        else getA p [] s.uniq := by
  simp only [processEntry, hp]
  by_cases hg : now - durationDays 1 ≤ t
  · rw [if_pos hg]
    exact foldl_stepWindow_uniq_mem keys now t e.sender ws s p dur hmem hnd hkey
  · rw [if_neg hg]
    exact foldl_stepWindow_uniq_mem keys now t e.sender ws s p dur hmem hnd hkey

theorem processEntry_gas (keys : StatsKeys) (ws : List (String × Int)) (now : Int)
    (s : CycleState) (e : UserOp) (t : Int)
    (hp : parseRFC3339 e.timestamp = some t) :
    (processEntry keys ws now s e).gasUsage
      = if now - durationDays 1 ≤ t
          then updA e.sender 0 (fun v => (v + e.gas_used) % U64) s.gasUsage
        else s.gasUsage := by
  simp only [processEntry, hp]
  by_cases hg : now - durationDays 1 ≤ t
  · rw [if_pos hg, if_pos hg]
    rw [foldl_stepWindow_gas]
  · rw [if_neg hg, if_neg hg]
    rw [foldl_stepWindow_gas]

theorem processEntry_uniq_keys (keys : StatsKeys) (ws : List (String × Int)) (now : Int)
    (s : CycleState) (e : UserOp) :
    (processEntry keys ws now s e).uniq.map Prod.fst = s.uniq.map Prod.fst := by
  cases hp : parseRFC3339 e.timestamp with
  | none => rw [processEntry_parse_none keys ws now s e hp]
  | some t =>
    simp only [processEntry, hp]
    by_cases hg : now - durationDays 1 ≤ t
    · rw [if_pos hg]
      exact foldl_stepWindow_uniq_keys keys now t e.sender ws s
    · rw [if_neg hg]
      exact foldl_stepWindow_uniq_keys keys now t e.sender ws s

theorem processEntry_uniq_inWindow (keys : StatsKeys) (ws : List (String × Int)) (now : Int)
    (s : CycleState) (e : UserOp) (p : String) (dur : Int)
    (hmem : (p, dur) ∈ ws) (hnd : (ws.map Prod.fst).Nodup)
    (hkey : p ∈ s.uniq.map Prod.fst) :
    getA p [] (processEntry keys ws now s e).uniq
      = if inWindowB now dur e then insertList e.sender (getA p [] s.uniq)
        else getA p [] s.uniq := by
  cases hp : parseRFC3339 e.timestamp with
  | none =>
    rw [processEntry_parse_none keys ws now s e hp]
    simp [inWindowB, hp]
  | some t =>
    rw [processEntry_uniq keys ws now s e p dur t hp hmem hnd hkey]
    by_cases h : now - dur ≤ t
    · simp [inWindowB, hp, h]
    · simp [inWindowB, hp, h]

theorem insertList_toFinset (x : String) (l : List String) :
    (insertList x l).toFinset = insert x l.toFinset := by
  unfold insertList
  split
  · rw [Finset.insert_eq_self.mpr (List.mem_toFinset.mpr (by assumption))]
  · simp

theorem insertList_nodup (x : String) (l : List String) (h : l.Nodup) :
    (insertList x l).Nodup := by
  unfold insertList
  split
  · exact h
  · exact List.nodup_cons.mpr ⟨by assumption, h⟩

theorem foldl_processEntry_uniq_keys (keys : StatsKeys) (ws : List (String × Int)) (now : Int) :
    ∀ (ops : List UserOp) (s : CycleState),
      ((ops.foldl (processEntry keys ws now) s)).uniq.map Prod.fst = s.uniq.map Prod.fst := by
  intro ops
  induction ops with
  | nil => intro s; rfl
  | cons e ops ih =>
    intro s
    rw [List.foldl_cons, ih, processEntry_uniq_keys]

theorem foldl_processEntry_uniq_toFinset (keys : StatsKeys) (ws : List (String × Int))
    (now : Int) (p : String) (dur : Int)
    (hmem : (p, dur) ∈ ws) (hnd : (ws.map Prod.fst).Nodup) :
    ∀ (ops : List UserOp) (s : CycleState), p ∈ s.uniq.map Prod.fst →
      (getA p [] ((ops.foldl (processEntry keys ws now) s)).uniq).toFinset
        = (getA p [] s.uniq).toFinset
            ∪ ((ops.filter (inWindowB now dur)).map UserOp.sender).toFinset := by
  intro ops
  induction ops with
  | nil => intro s _; simp
  | cons e ops ih =>
    intro s hkey
    have hkey2 : p ∈ (processEntry keys ws now s e).uniq.map Prod.fst := by
      rw [processEntry_uniq_keys]
      exact hkey
    rw [List.foldl_cons, ih _ hkey2,
      processEntry_uniq_inWindow keys ws now s e p dur hmem hnd hkey]
    by_cases h : inWindowB now dur e
    · rw [if_pos h, List.filter_cons_of_pos h, List.map_cons, insertList_toFinset]
      simp [Finset.insert_union, Finset.union_insert]
    · rw [if_neg h, List.filter_cons_of_neg h]

theorem foldl_processEntry_uniq_nodup (keys : StatsKeys) (ws : List (String × Int))
    (now : Int) (p : String) (dur : Int)
    (hmem : (p, dur) ∈ ws) (hnd : (ws.map Prod.fst).Nodup) :
    ∀ (ops : List UserOp) (s : CycleState), p ∈ s.uniq.map Prod.fst →
      (getA p [] s.uniq).Nodup →
      (getA p [] ((ops.foldl (processEntry keys ws now) s)).uniq).Nodup := by
  intro ops
  induction ops with
  | nil => intro s _ h; exact h
  | cons e ops ih =>
    intro s hkey hnodup
    have hkey2 : p ∈ (processEntry keys ws now s e).uniq.map Prod.fst := by
      rw [processEntry_uniq_keys]
      exact hkey
    rw [List.foldl_cons]
    apply ih _ hkey2
    rw [processEntry_uniq_inWindow keys ws now s e p dur hmem hnd hkey]
    by_cases h : inWindowB now dur e
    · rw [if_pos h]
      exact insertList_nodup _ _ hnodup
    · rw [if_neg h]
      exact hnodup

/-! ## The drain loop versus the consumed record list -/

theorem drainUserOps_eq_foldl (keys : StatsKeys) (ws : List (String × Int)) (now : Int) :
    ∀ (pages : List (Except String UserOpsPage)) (s : CycleState),
      drainUserOps keys ws now s pages
        = (consumedUserOps pages).foldl (processEntry keys ws now) s := by
  intro pages
  induction pages with
  | nil => intro s; rfl
  | cons page rest ih =>
    intro s
    cases page with
    | error e => rfl
    | ok pg =>
      cases htok : pg.next_page_token with
      | some tok =>
        simp only [drainUserOps, consumedUserOps, htok, processPage, List.foldl_append]
        exact ih _
      | none =>
        simp only [drainUserOps, consumedUserOps, htok, processPage, List.append_nil]

/-! ## Reading the stats map after `storeUniqueCounts` -/

theorem getD2_set2 (n p : String) (f : Nat → Nat) (q r : String)
    (st : List (String × List (String × Nat))) :
    getD2 q r (updA n [] (updA p 0 f) st)
      = if q = n ∧ r = p then f (getD2 n p st) else getD2 q r st := by
  unfold getD2
  rw [getA_updA]
  by_cases h1 : q = n
  · subst h1
    rw [if_pos rfl, getA_updA]
    by_cases h2 : r = p
    · subst h2
      rw [if_pos rfl, if_pos ⟨rfl, rfl⟩]
    · rw [if_neg h2, if_neg (fun hc => h2 hc.2)]
  · rw [if_neg h1, if_neg (fun hc => h1 hc.1)]

theorem store_fold_not_mem (qn : String) (p : String) :
    ∀ (es : List (String × List String)) (st : List (String × List (String × Nat))),
      p ∉ es.map Prod.fst →
      getD2 qn p (es.foldl
          (fun st2 e => updA qn [] (updA e.1 0 (fun _ => e.2.length)) st2) st)
        = getD2 qn p st := by
  intro es
  induction es with
  | nil => intro st _; rfl
  | cons e es ih =>
    intro st hp
    have hp1 : e.1 ≠ p := fun hh => hp (by simp [hh])
    have hp2 : p ∉ es.map Prod.fst := fun hh => hp (by simp [hh])
    rw [List.foldl_cons, ih _ hp2, getD2_set2, if_neg (fun hc => hp1 hc.2.symm)]

theorem store_fold_mem (qn : String) (p : String) (l : List String) :
    ∀ (es : List (String × List String)) (st : List (String × List (String × Nat))),
      (es.map Prod.fst).Nodup → (p, l) ∈ es →
      getD2 qn p (es.foldl
          (fun st2 e => updA qn [] (updA e.1 0 (fun _ => e.2.length)) st2) st)
        = l.length := by
  intro es
  induction es with
  | nil => intro st _ h; cases h
  | cons e es ih =>
    intro st hnd hmem
    rw [List.foldl_cons]
    rcases List.mem_cons.mp hmem with heq | htail
    · subst heq
      have hnotmem : p ∉ es.map Prod.fst := by
        have := (List.nodup_cons.mp hnd).1
        simpa using this
      rw [store_fold_not_mem qn p es _ hnotmem, getD2_set2, if_pos ⟨rfl, rfl⟩]
    · exact ih _ (List.nodup_cons.mp hnd).2 htail

theorem getD2_storeUniqueCounts (keys : StatsKeys) (s : CycleState) (p : String)
    (l : List String) (hnd : (s.uniq.map Prod.fst).Nodup) (hmem : (p, l) ∈ s.uniq) :
    getD2 keys.uniqueActiveAccountsName p (storeUniqueCounts keys s).stats = l.length := by
  unfold storeUniqueCounts
  exact store_fold_mem keys.uniqueActiveAccountsName p l s.uniq s.stats hnd hmem

/-! ## The initial cycle state -/

theorem initCycle_uniq_keys (keys : StatsKeys) (ws : List (String × Int)) :
    (initCycle keys ws).uniq.map Prod.fst = ws.map Prod.fst := by
  simp [initCycle, List.map_map, Function.comp]

theorem getA_initCycle_uniq (keys : StatsKeys) (p : String) :
    ∀ (ws : List (String × Int)), getA p [] (initCycle keys ws).uniq = [] := by
  intro ws
  show getA p [] (ws.map (fun pd => (pd.1, []))) = []
  induction ws with
  | nil => rfl
  | cons w ws ih =>
    by_cases h : w.1 = p
    · simp [getA, h]
    · simp [getA, h, ih]

theorem mem_of_getA (p : String) :
    ∀ (m : List (String × List String)), p ∈ m.map Prod.fst → (p, getA p [] m) ∈ m := by
  intro m
  induction m with
  | nil => intro h; cases h
  | cons e rest ih =>
    intro hmem
    by_cases h : e.1 = p
    · have hv : getA p [] (e :: rest) = e.2 := by simp [getA, h]
      rw [hv, ← h]
      exact List.mem_cons_self _ _
    · have hr : p ∈ rest.map Prod.fst := by
        rcases List.mem_cons.mp hmem with hh | hh
        · exact absurd hh.symm h
        · exact hh
      right
      simpa [getA, h] using ih hr

/-! ## Day-of-year: the code ordinal versus the counting definition -/

theorem countP_flatMap_sum {α β : Type} (p : β → Bool) (F : α → List β) :
    ∀ l : List α, (l.flatMap F).countP p = (l.map (fun a => (F a).countP p)).sum := by
  intro l
  induction l with
  | nil => rfl
  | cons a l ih => simp [List.flatMap_cons, List.countP_append, ih]

theorem countP_range_le (d : Nat) :
    ∀ n, (List.range n).countP (fun j => decide (j + 1 ≤ d)) = min d n := by
  intro n
  induction n with
  | zero => simp
  | succ n ih =>
    rw [List.range_succ, List.countP_append, ih]
    by_cases h : n + 1 ≤ d
    · simp [List.countP_cons, h]
      omega
    · simp [List.countP_cons, h]
      omega

theorem month_block_count (b : Bool) (m d : Nat) (hd : d ≤ daysInMonthFlag b m) (k : Nat) :
    ((List.range (daysInMonthFlag b k)).map (fun j => ((k, j + 1) : Nat × Nat))).countP
        (fun md => decide (md.1 < m ∨ (md.1 = m ∧ md.2 ≤ d)))
      = if k < m then daysInMonthFlag b k else if k = m then d else 0 := by
  rw [List.countP_map]
  rcases lt_trichotomy k m with h | h | h
  · rw [if_pos h, List.countP_eq_length.2, List.length_range]
    intro a _
    simp [Function.comp, h]
  · subst h
    rw [if_neg (lt_irrefl _), if_pos rfl]
    have heq : ((fun md : Nat × Nat => decide (md.1 < k ∨ (md.1 = k ∧ md.2 ≤ d)))
        ∘ fun j => ((k, j + 1) : Nat × Nat)) = fun j => decide (j + 1 ≤ d) := by
      funext j
      simp
    rw [heq, countP_range_le, Nat.min_eq_left hd]
  · rw [if_neg (by omega), if_neg (by omega), List.countP_eq_zero.2]
    intro a _
    simp [Function.comp]
    omega

theorem sum_prefix_lt (b : Bool) (m d : Nat) :
    ∀ n, n < m →
      ((List.range n).map (fun i => if i + 1 < m then daysInMonthFlag b (i + 1)
          else if i + 1 = m then d else 0)).sum
        = ((List.range (n + 1)).map (daysInMonthFlag b)).sum := by
  intro n
  induction n with
  | zero =>
    intro _
    rfl
  | succ n ih =>
    intro h
    rw [List.range_succ, List.map_append, List.sum_append, ih (by omega)]
    simp only [List.range_succ, List.map_append, List.sum_append, List.map_cons,
      List.map_nil, List.sum_cons, List.sum_nil]
    rw [if_pos h]

theorem sum_prefix_exact (b : Bool) (d : Nat) (m1 : Nat) :
    ((List.range (m1 + 1)).map (fun i => if i + 1 < m1 + 1 then daysInMonthFlag b (i + 1)
        else if i + 1 = m1 + 1 then d else 0)).sum
      = ((List.range (m1 + 1)).map (daysInMonthFlag b)).sum + d := by
  rw [List.range_succ, List.map_append, List.sum_append, sum_prefix_lt b (m1 + 1) d m1 (by omega)]
  simp only [List.map_cons, List.map_nil, List.sum_cons, List.sum_nil]
  rw [if_neg (by omega : ¬ (m1 + 1 < m1 + 1))]
  rw [← List.range_succ]
  simp

theorem sum_plateau (b : Bool) (m d : Nat) :
    ∀ j, ((List.range (m + j)).map (fun i => if i + 1 < m then daysInMonthFlag b (i + 1)
        else if i + 1 = m then d else 0)).sum
      = ((List.range m).map (fun i => if i + 1 < m then daysInMonthFlag b (i + 1)
        else if i + 1 = m then d else 0)).sum := by
  intro j
  induction j with
  | zero => rfl
  | succ j ih =>
    have hmj : m + (j + 1) = (m + j) + 1 := by omega
    rw [hmj, List.range_succ, List.map_append, List.sum_append, ih]
    simp only [List.map_cons, List.map_nil, List.sum_cons, List.sum_nil]
    rw [if_neg (by omega : ¬ (m + j + 1 < m)), if_neg (by omega : ¬ (m + j + 1 = m))]
    omega

theorem specOrdinalFlag_eq_ordinalFlag (b : Bool) (m d : Nat)
    (h1 : 1 ≤ m) (h2 : m ≤ 12) (hd : d ≤ daysInMonthFlag b m) :
    specOrdinalFlag b m d = ordinalFlag b m d := by
  unfold specOrdinalFlag yearDays
  rw [countP_flatMap_sum]
  rw [List.map_congr_left (fun i _ => month_block_count b m d hd (i + 1))]
  have h12 : (12 : Nat) = m + (12 - m) := by omega
  rw [h12, sum_plateau b m d (12 - m)]
  obtain ⟨m1, rfl⟩ : ∃ m1, m = m1 + 1 := ⟨m - 1, by omega⟩
  rw [sum_prefix_exact b d m1]
  unfold ordinalFlag
  rfl

/-! ## Ordering properties of the ranking selectors -/

theorem select5_sorted (now : Int) (accs : List Account) :
    (select5 now accs).Pairwise (fun a b => accountTime now b ≤ accountTime now a) := by
  haveI : IsTotal Account (fun a b => accountTime now b ≤ accountTime now a) :=
    ⟨fun a b => le_total (accountTime now b) (accountTime now a)⟩
  haveI : IsTrans Account (fun a b => accountTime now b ≤ accountTime now a) :=
    ⟨fun _ _ _ hab hbc => le_trans hbc hab⟩
  exact List.Pairwise.sublist (List.take_sublist 5 _)
    (List.sorted_insertionSort (fun a b => accountTime now b ≤ accountTime now a) _)

theorem select5_length (now : Int) (accs : List Account) :
    (select5 now accs).length ≤ 5 := by
  unfold select5
  rw [List.length_take]
  exact min_le_left _ _

theorem select5_nil (now : Int) : select5 now [] = [] := rfl

theorem getA_eq_of_mem_nodup (k : String) (v : Nat) :
    ∀ gas : List (String × Nat), (gas.map Prod.fst).Nodup → (k, v) ∈ gas →
      getA k 0 gas = v := by
  intro gas
  induction gas with
  | nil => intro _ h; cases h
  | cons e rest ih =>
    intro hnd hmem
    by_cases h1 : e.1 = k
    · rcases List.mem_cons.mp hmem with heq | htail
      · subst heq
        simp [getA]
      · exfalso
        have : k ∈ rest.map Prod.fst := by
          have : (k, v).1 ∈ rest.map Prod.fst := List.mem_map_of_mem Prod.fst htail
          simpa using this
        exact (List.nodup_cons.mp hnd).1 (h1 ▸ this)
    · rcases List.mem_cons.mp hmem with heq | htail
      · exact absurd (congrArg Prod.fst heq).symm h1
      · simp [getA, h1]
        exact ih (List.nodup_cons.mp hnd).2 htail

theorem mem_topGasConsumers (gas : List (String × Nat)) (a : Account)
    (ha : a ∈ topGasConsumers gas) (hnd : (gas.map Prod.fst).Nodup) :
    getA a.address 0 gas = a.gas_used := by
  unfold topGasConsumers at ha
  have h1 : a ∈ ((gas.map (fun e =>
      ({ address := e.1, creation_timestamp := "", gas_used := e.2 } : Account))).insertionSort
        (fun a b => getA a.address 0 gas ≤ getA b.address 0 gas)).reverse :=
    (List.take_sublist 5 _).mem ha
  rw [List.mem_reverse] at h1
  have h2 := (List.perm_insertionSort
    (fun a b : Account => getA a.address 0 gas ≤ getA b.address 0 gas) _).mem_iff.mp h1
  obtain ⟨e, hmem, rfl⟩ := List.mem_map.mp h2
  exact getA_eq_of_mem_nodup e.1 e.2 gas hnd hmem

theorem topGasConsumers_sorted (gas : List (String × Nat))
    (hnd : (gas.map Prod.fst).Nodup) :
    (topGasConsumers gas).Pairwise (fun a b => b.gas_used ≤ a.gas_used) := by
  haveI : IsTotal Account (fun a b => getA a.address 0 gas ≤ getA b.address 0 gas) :=
    ⟨fun a b => le_total _ _⟩
  haveI : IsTrans Account (fun a b => getA a.address 0 gas ≤ getA b.address 0 gas) :=
    ⟨fun _ _ _ hab hbc => le_trans hab hbc⟩
  have hs := List.sorted_insertionSort
    (fun a b => getA a.address 0 gas ≤ getA b.address 0 gas)
    (gas.map (fun e =>
      ({ address := e.1, creation_timestamp := "", gas_used := e.2 } : Account)))
  have hrev : (((gas.map (fun e =>
      ({ address := e.1, creation_timestamp := "", gas_used := e.2 } : Account))).insertionSort
        (fun a b => getA a.address 0 gas ≤ getA b.address 0 gas)).reverse).Pairwise
      (fun a b => getA b.address 0 gas ≤ getA a.address 0 gas) :=
    List.pairwise_reverse.mpr hs
  have hout : (topGasConsumers gas).Pairwise
      (fun a b => getA b.address 0 gas ≤ getA a.address 0 gas) :=
    List.Pairwise.sublist (List.take_sublist 5 _) hrev
  refine List.Pairwise.imp_of_mem ?_ hout
  intro a b ha hb hr
  rw [mem_topGasConsumers gas a ha hnd, mem_topGasConsumers gas b hb hnd] at hr
  exact hr

theorem topGasConsumers_length (gas : List (String × Nat)) :
    (topGasConsumers gas).length ≤ 5 := by
  unfold topGasConsumers
  rw [List.length_take]
  exact min_le_left _ _

theorem topGasConsumers_nil : topGasConsumers [] = [] := rfl

/-! ## Claim theorems -/

/-- C1 (code evaluation at the failing input): processing one operation
record with cost 100 whose timestamp lies inside the 24h window leaves
the gas-used counter at 1 — the code increments it by a fixed 1 (usage.rs
line 264, activity.rs line 238) — instead of adding the record's cost
value 100; the operation-count counter is also 1. -/
theorem c1_gas_counter_incremented_by_one :
    getD2 "GAS_USED" "24h"
        ((processEntry ⟨"USER_OPS", "GAS_USED", "UNIQUE_ACTIVE"⟩ [("24h", 86400)] 0
          (initCycle ⟨"USER_OPS", "GAS_USED", "UNIQUE_ACTIVE"⟩ [("24h", 86400)])
          ⟨"0xAA", 100, "1970-01-01T00:00:00Z"⟩).stats) = 1
    ∧ getD2 "USER_OPS" "24h"
        ((processEntry ⟨"USER_OPS", "GAS_USED", "UNIQUE_ACTIVE"⟩ [("24h", 86400)] 0
          (initCycle ⟨"USER_OPS", "GAS_USED", "UNIQUE_ACTIVE"⟩ [("24h", 86400)])
          ⟨"0xAA", 100, "1970-01-01T00:00:00Z"⟩).stats) = 1 :=
  ⟨by decide, by decide⟩

/-- C2 (counterexample): with two pages the drained selection is computed
from the last page only, so it differs from the spec's selection over all
fetched accounts. -/
theorem c2_counterexample :
    drainAccounts 0 []
        [Except.ok ⟨[⟨"A", "1970-01-02T00:00:00Z", 0⟩], some "tok"⟩,
         Except.ok ⟨[⟨"B", "1970-01-01T00:00:00Z", 0⟩], none⟩]
      ≠ specRecentSelection 0
          [⟨"A", "1970-01-02T00:00:00Z", 0⟩, ⟨"B", "1970-01-01T00:00:00Z", 0⟩] := by
  decide

/-- C2 (amended): after the accounts source is drained, the stored
selection equals the per-page selection of the final fetched page — each
page overwrites the previous one — and hence equals the 5 accounts with
the latest timestamps only when the source returns everything in a
single page. -/
theorem c2_recent_selection_last_page (now : Int) (sel : List Account)
    (oks : List AccountsPage) (last : AccountsPage)
    (hok : ∀ pg ∈ oks, pg.next_page_token.isSome = true)
    (hlast : last.next_page_token = none) :
    drainAccounts now sel (oks.map Except.ok ++ [Except.ok last])
      = select5 now last.accounts := by
  induction oks generalizing sel with
  | nil =>
    simp only [List.map_nil, List.nil_append, drainAccounts, hlast]
  | cons pg oks ih =>
    obtain ⟨tok, htok⟩ := Option.isSome_iff_exists.mp (hok pg (List.mem_cons_self pg oks))
    simp only [List.map_cons, List.cons_append, drainAccounts, htok]
    exact ih _ (fun pg2 h2 => hok pg2 (List.mem_cons_of_mem pg h2))

/-- Witness for C2 (amended): a single page with six accounts bearing
distinct timestamps yields the five latest, in descending order. -/
theorem c2_recent_selection_last_page_witness :
    drainAccounts 1000000 []
        [Except.ok ⟨[⟨"A1", "1970-01-01T00:00:00Z", 0⟩,
                     ⟨"A4", "1970-01-04T00:00:00Z", 0⟩,
                     ⟨"A2", "1970-01-02T00:00:00Z", 0⟩,
                     ⟨"A6", "1970-01-06T00:00:00Z", 0⟩,
                     ⟨"A3", "1970-01-03T00:00:00Z", 0⟩,
                     ⟨"A5", "1970-01-05T00:00:00Z", 0⟩], none⟩]
      = select5 1000000
          [⟨"A1", "1970-01-01T00:00:00Z", 0⟩,
           ⟨"A4", "1970-01-04T00:00:00Z", 0⟩,
           ⟨"A2", "1970-01-02T00:00:00Z", 0⟩,
           ⟨"A6", "1970-01-06T00:00:00Z", 0⟩,
           ⟨"A3", "1970-01-03T00:00:00Z", 0⟩,
           ⟨"A5", "1970-01-05T00:00:00Z", 0⟩]
    ∧ select5 1000000
          [⟨"A1", "1970-01-01T00:00:00Z", 0⟩,
           ⟨"A4", "1970-01-04T00:00:00Z", 0⟩,
           ⟨"A2", "1970-01-02T00:00:00Z", 0⟩,
           ⟨"A6", "1970-01-06T00:00:00Z", 0⟩,
           ⟨"A3", "1970-01-03T00:00:00Z", 0⟩,
           ⟨"A5", "1970-01-05T00:00:00Z", 0⟩]
        = [⟨"A6", "1970-01-06T00:00:00Z", 0⟩,
           ⟨"A5", "1970-01-05T00:00:00Z", 0⟩,
           ⟨"A4", "1970-01-04T00:00:00Z", 0⟩,
           ⟨"A3", "1970-01-03T00:00:00Z", 0⟩,
           ⟨"A2", "1970-01-02T00:00:00Z", 0⟩] :=
  ⟨c2_recent_selection_last_page 1000000 [] [] _
      (fun pg h2 => absurd h2 (List.not_mem_nil pg)) rfl,
   by decide⟩

/-- C3: after the drain, the unique-active-accounts counter of each
window equals the number of distinct senders among the consumed records
falling in that window. -/
theorem c3_unique_active_accounts (keys : StatsKeys) (windows : List (String × Int))
    (now : Int) (pages : List (Except String UserOpsPage)) (p : String) (dur : Int)
    (hmem : (p, dur) ∈ windows) (hnd : (windows.map Prod.fst).Nodup) :
    getD2 keys.uniqueActiveAccountsName p
        (storeUniqueCounts keys
          (drainUserOps keys windows now (initCycle keys windows) pages)).stats
      = (((consumedUserOps pages).filter (inWindowB now dur)).map
          UserOp.sender).toFinset.card := by
  have hpw : p ∈ windows.map Prod.fst := by
    have : (p, dur).1 ∈ windows.map Prod.fst := List.mem_map_of_mem Prod.fst hmem
    simpa using this
  have hpk0 : p ∈ (initCycle keys windows).uniq.map Prod.fst := by
    rw [initCycle_uniq_keys]
    exact hpw
  have hkeys : (drainUserOps keys windows now (initCycle keys windows) pages).uniq.map
      Prod.fst = windows.map Prod.fst := by
    rw [drainUserOps_eq_foldl, foldl_processEntry_uniq_keys, initCycle_uniq_keys]
  have hpk : p ∈ (drainUserOps keys windows now (initCycle keys windows) pages).uniq.map
      Prod.fst := by
    rw [hkeys]
    exact hpw
  have hnd1 : ((drainUserOps keys windows now (initCycle keys windows) pages).uniq.map
      Prod.fst).Nodup := by
    rw [hkeys]
    exact hnd
  rw [getD2_storeUniqueCounts keys _ p _ hnd1 (mem_of_getA p _ hpk)]
  have hnodup : (getA p []
      (drainUserOps keys windows now (initCycle keys windows) pages).uniq).Nodup := by
    rw [drainUserOps_eq_foldl]
    apply foldl_processEntry_uniq_nodup keys windows now p dur hmem hnd _ _ hpk0
    rw [getA_initCycle_uniq]
    exact List.nodup_nil
  rw [← List.toFinset_card_of_nodup hnodup, drainUserOps_eq_foldl,
    foldl_processEntry_uniq_toFinset keys windows now p dur hmem hnd _ _ hpk0,
    getA_initCycle_uniq]
  simp

/-- Witness for C3: sender A appears twice inside the 24h window and
sender B's record is older than the window, so the counter is 1. -/
theorem c3_unique_active_accounts_witness :
    getD2 "UNIQUE_ACTIVE" "24h"
        (storeUniqueCounts ⟨"USER_OPS", "GAS_USED", "UNIQUE_ACTIVE"⟩
          (drainUserOps ⟨"USER_OPS", "GAS_USED", "UNIQUE_ACTIVE"⟩ [("24h", 86400)] 86400
            (initCycle ⟨"USER_OPS", "GAS_USED", "UNIQUE_ACTIVE"⟩ [("24h", 86400)])
            [Except.ok ⟨[⟨"A", 10, "1970-01-02T00:00:00Z"⟩,
                         ⟨"A", 20, "1970-01-02T00:00:00Z"⟩,
                         ⟨"B", 30, "1969-12-31T00:00:00Z"⟩], none⟩])).stats
      = (((consumedUserOps
            [Except.ok ⟨[⟨"A", 10, "1970-01-02T00:00:00Z"⟩,
                         ⟨"A", 20, "1970-01-02T00:00:00Z"⟩,
                         ⟨"B", 30, "1969-12-31T00:00:00Z"⟩], none⟩]).filter
              (inWindowB 86400 86400)).map UserOp.sender).toFinset.card
    ∧ (((consumedUserOps
            [Except.ok ⟨[⟨"A", 10, "1970-01-02T00:00:00Z"⟩,
                         ⟨"A", 20, "1970-01-02T00:00:00Z"⟩,
                         ⟨"B", 30, "1969-12-31T00:00:00Z"⟩], none⟩]).filter
              (inWindowB 86400 86400)).map UserOp.sender).toFinset.card = 1 :=
  ⟨c3_unique_active_accounts ⟨"USER_OPS", "GAS_USED", "UNIQUE_ACTIVE"⟩ [("24h", 86400)]
      86400 _ "24h" 86400 (by decide) (by decide),
   by decide⟩

/-- C4: a record with a parseable timestamp is counted toward a window
exactly when `now` minus the window's duration is at most the record's
timestamp: the operation-count counter of that window is incremented
when the condition holds and is unchanged otherwise. -/
theorem c4_window_membership (keys : StatsKeys) (windows : List (String × Int))
    (now : Int) (s : CycleState) (e : UserOp) (p : String) (dur t : Int)
    (hp : parseRFC3339 e.timestamp = some t)
    (hmem : (p, dur) ∈ windows) (hnd : (windows.map Prod.fst).Nodup)
    (hne : keys.userOpsName ≠ keys.gasUsedName) :
    getD2 keys.userOpsName p (processEntry keys windows now s e).stats
      = if now - dur ≤ t then (getD2 keys.userOpsName p s.stats + 1) % U64
        else getD2 keys.userOpsName p s.stats :=
  processEntry_stats keys windows now s e p dur t hp hmem hnd hne

/-- Witness for C4 at now = 2024-03-10T12:00:00Z: a record two hours old
is counted toward the 24h window (and a record 40 days old toward none of
the three windows could be checked symmetrically via the same theorem). -/
theorem c4_window_membership_witness :
    parseRFC3339 "2024-03-10T10:00:00Z" = some 1710064800
    ∧ getD2 "USER_OPS" "24h"
        ((processEntry ⟨"USER_OPS", "GAS_USED", "UNIQUE_ACTIVE"⟩
          [("24h", 86400), ("30d", 2592000), ("ytd", 6048000)] 1710072000
          (initCycle ⟨"USER_OPS", "GAS_USED", "UNIQUE_ACTIVE"⟩
            [("24h", 86400), ("30d", 2592000), ("ytd", 6048000)])
          ⟨"0xAA", 100, "2024-03-10T10:00:00Z"⟩).stats)
      = if (1710072000 : Int) - 86400 ≤ 1710064800
          then (getD2 "USER_OPS" "24h"
            (initCycle ⟨"USER_OPS", "GAS_USED", "UNIQUE_ACTIVE"⟩
              [("24h", 86400), ("30d", 2592000), ("ytd", 6048000)]).stats + 1) % U64
        else getD2 "USER_OPS" "24h"
          (initCycle ⟨"USER_OPS", "GAS_USED", "UNIQUE_ACTIVE"⟩
            [("24h", 86400), ("30d", 2592000), ("ytd", 6048000)]).stats :=
  ⟨by decide,
   c4_window_membership ⟨"USER_OPS", "GAS_USED", "UNIQUE_ACTIVE"⟩
     [("24h", 86400), ("30d", 2592000), ("ytd", 6048000)] 1710072000 _
     ⟨"0xAA", 100, "2024-03-10T10:00:00Z"⟩ "24h" 86400 1710064800
     (by decide) (by decide) (by decide) (by decide)⟩

/-- C5 (counterexample): with two senders of equal accumulated gas the
top-gas-consumers selection is not strictly descending in the ranking
key, refuting the strict-order part of the claim. -/
theorem c5_counterexample :
    ¬ (topGasConsumers [("a", 5), ("b", 5)]).Pairwise
        (fun x y => y.gas_used < x.gas_used) := by
  decide

/-- C5 (amended): each selector output has at most 5 entries, is ordered
non-strictly descending by its ranking key (the parsed creation time
with fallback `now`, respectively the accumulated gas), and an empty
input yields an empty selection. -/
theorem c5_selector_bounds (now : Int) (accs : List Account)
    (gas : List (String × Nat)) (hnd : (gas.map Prod.fst).Nodup) :
    (select5 now accs).length ≤ 5
    ∧ (select5 now accs).Pairwise (fun a b => accountTime now b ≤ accountTime now a)
    ∧ select5 now [] = []
    ∧ (topGasConsumers gas).length ≤ 5
    ∧ (topGasConsumers gas).Pairwise (fun a b => b.gas_used ≤ a.gas_used)
    ∧ topGasConsumers [] = [] :=
  ⟨select5_length now accs, select5_sorted now accs, select5_nil now,
   topGasConsumers_length gas, topGasConsumers_sorted gas hnd, topGasConsumers_nil⟩

/-- Witness for C5 on concrete inputs (a tie in the gas tally and a
mixed account list). -/
theorem c5_selector_bounds_witness :
    (select5 0 [⟨"A", "1970-01-02T00:00:00Z", 0⟩, ⟨"B", "", 0⟩,
        ⟨"C", "1970-01-01T00:00:00Z", 0⟩]).length ≤ 5
    ∧ (select5 0 [⟨"A", "1970-01-02T00:00:00Z", 0⟩, ⟨"B", "", 0⟩,
        ⟨"C", "1970-01-01T00:00:00Z", 0⟩]).Pairwise
          (fun a b => accountTime 0 b ≤ accountTime 0 a)
    ∧ select5 0 [] = []
    ∧ (topGasConsumers [("a", 5), ("b", 7), ("c", 5)]).length ≤ 5
    ∧ (topGasConsumers [("a", 5), ("b", 7), ("c", 5)]).Pairwise
        (fun a b => b.gas_used ≤ a.gas_used)
    ∧ topGasConsumers [] = [] :=
  c5_selector_bounds 0
    [⟨"A", "1970-01-02T00:00:00Z", 0⟩, ⟨"B", "", 0⟩, ⟨"C", "1970-01-01T00:00:00Z", 0⟩]
    [("a", 5), ("b", 7), ("c", 5)] (by decide)

/-- C6: when a page fetch fails after some successful pages, the drain
stops there — the remaining fetch results are never consumed — and
returns exactly the state accumulated from the successful pages; no
error is propagated (the loop's value is an ordinary state). -/
theorem c6_partial_failure_retains_state (keys : StatsKeys)
    (windows : List (String × Int)) (now : Int) (s : CycleState)
    (oks : List UserOpsPage) (err : String)
    (rest : List (Except String UserOpsPage))
    (hok : ∀ pg ∈ oks, pg.next_page_token.isSome = true) :
    drainUserOps keys windows now s (oks.map Except.ok ++ Except.error err :: rest)
      = oks.foldl (processPage keys windows now) s := by
  induction oks generalizing s with
  | nil => rfl
  | cons pg oks ih =>
    obtain ⟨tok, htok⟩ := Option.isSome_iff_exists.mp (hok pg (List.mem_cons_self pg oks))
    simp only [List.map_cons, List.cons_append, drainUserOps, htok, List.foldl_cons]
    exact ih _ (fun pg2 h2 => hok pg2 (List.mem_cons_of_mem pg h2))

/-- Witness for C6: one successful page, then a failure; the state equals
the fold over the single successful page regardless of later results. -/
theorem c6_partial_failure_retains_state_witness :
    drainUserOps ⟨"USER_OPS", "GAS_USED", "UNIQUE_ACTIVE"⟩ [("24h", 86400)] 86400
        (initCycle ⟨"USER_OPS", "GAS_USED", "UNIQUE_ACTIVE"⟩ [("24h", 86400)])
        ([⟨[⟨"A", 10, "1970-01-02T00:00:00Z"⟩], some "tok"⟩].map Except.ok
          ++ Except.error "boom"
            :: [Except.ok ⟨[⟨"B", 20, "1970-01-02T00:00:00Z"⟩], none⟩])
      = [(⟨[⟨"A", 10, "1970-01-02T00:00:00Z"⟩], some "tok"⟩ : UserOpsPage)].foldl
          (processPage ⟨"USER_OPS", "GAS_USED", "UNIQUE_ACTIVE"⟩ [("24h", 86400)] 86400)
          (initCycle ⟨"USER_OPS", "GAS_USED", "UNIQUE_ACTIVE"⟩ [("24h", 86400)]) :=
  c6_partial_failure_retains_state ⟨"USER_OPS", "GAS_USED", "UNIQUE_ACTIVE"⟩
    [("24h", 86400)] 86400 _ _ "boom" _ (by decide)

/-- C7 (counterexample): a record lacking the `creation_timestamp` key
entirely does NOT decode successfully — serde's `deserialize_with`
without `default` raises a missing-field error when the key is absent —
refuting the claim's "(or absent)" part. -/
theorem c7_counterexample :
    decodeAccount (Json.obj [("address", Json.obj [("hash", Json.str "0xA")])])
      = Except.error "missing field creation_timestamp" := by decide

/-- C7 (amended): an `address` without a `hash` subfield is a decode
error; a non-numeric `fee` string is a decode error; a JSON-null
`creation_timestamp` decodes to the empty string; an absent
`creation_timestamp` key is a missing-field decode error; and a page
fails when one of its records fails. -/
theorem c7_decoding_quirks :
    decodeUserOp (Json.obj [("address", Json.obj []), ("fee", Json.str "1"),
        ("timestamp", Json.str "2024-03-10T12:00:00Z")])
      = Except.error "missing field address.hash"
    ∧ decodeUserOp (Json.obj [("address", Json.obj [("hash", Json.str "0xAA")]),
        ("fee", Json.str "abc"), ("timestamp", Json.str "2024-03-10T12:00:00Z")])
      = Except.error "invalid u64 string"
    ∧ decodeAccount (Json.obj [("address", Json.obj [("hash", Json.str "0xAA")]),
        ("creation_timestamp", Json.null)])
      = Except.ok { address := "0xAA", creation_timestamp := "", gas_used := 0 }
    ∧ decodeAccount (Json.obj [("address", Json.obj [("hash", Json.str "0xAA")])])
      = Except.error "missing field creation_timestamp"
    ∧ decodeListWith decodeUserOp
        [Json.obj [("address", Json.obj [("hash", Json.str "0xAA")]),
          ("fee", Json.str "100"), ("timestamp", Json.str "2024-03-10T12:00:00Z")],
         Json.obj [("address", Json.obj []), ("fee", Json.str "1"),
          ("timestamp", Json.str "2024-03-10T12:00:00Z")]]
      = Except.error "missing field address.hash" :=
  ⟨by decide, by decide, by decide, by decide, by decide⟩

/-- C8: a record whose timestamp does not parse as RFC 3339 leaves the
whole cycle state — every counter, every unique-identity set and the
per-sender gas tally — unchanged, and the step is an ordinary value (no
error). -/
theorem c8_unparseable_timestamp_skipped (keys : StatsKeys)
    (windows : List (String × Int)) (now : Int) (s : CycleState) (e : UserOp)
    (hp : parseRFC3339 e.timestamp = none) :
    processEntry keys windows now s e = s :=
  processEntry_parse_none keys windows now s e hp

/-- Witness for C8 on a concrete malformed timestamp. -/
theorem c8_unparseable_timestamp_skipped_witness :
    parseRFC3339 "not-a-timestamp" = none
    ∧ processEntry ⟨"USER_OPS", "GAS_USED", "UNIQUE_ACTIVE"⟩ [("24h", 86400)] 86400
        (initCycle ⟨"USER_OPS", "GAS_USED", "UNIQUE_ACTIVE"⟩ [("24h", 86400)])
        ⟨"0xAA", 100, "not-a-timestamp"⟩
      = initCycle ⟨"USER_OPS", "GAS_USED", "UNIQUE_ACTIVE"⟩ [("24h", 86400)] :=
  ⟨by decide,
   c8_unparseable_timestamp_skipped ⟨"USER_OPS", "GAS_USED", "UNIQUE_ACTIVE"⟩
     [("24h", 86400)] 86400 _ ⟨"0xAA", 100, "not-a-timestamp"⟩ (by decide)⟩

/-- C9: for every instant `now`, `to_duration` maps the year-to-date
window to the ordinal day number of `now` within its year (expressed as
a count of days), the last-24-hours window to 1 day and the last-30-days
window to 30 days. -/
theorem c9_to_duration_ordinal (now : UtcDate) (h : validDate now.year now.month now.day) :
    TimeWindow.to_duration TimeWindow.yearToDate now
        = durationDays (specOrdinalDay now.year now.month now.day)
    ∧ TimeWindow.to_duration TimeWindow.last24Hours now = durationDays 1
    ∧ TimeWindow.to_duration TimeWindow.last30Days now = durationDays 30 := by
  refine ⟨?_, rfl, rfl⟩
  show durationDays (UtcDate.ordinal now)
    = durationDays (specOrdinalDay now.year now.month now.day)
  obtain ⟨h1, h2, h3, h4⟩ := h
  unfold UtcDate.ordinal specOrdinalDay
  rw [specOrdinalFlag_eq_ordinalFlag (isLeapYear now.year) now.month now.day h1 h2 h4]

/-- Witness for C9 at 2025-02-17 (ordinal day 48). -/
theorem c9_to_duration_ordinal_witness :
    specOrdinalDay 2025 2 17 = 48
    ∧ (TimeWindow.to_duration TimeWindow.yearToDate ⟨2025, 2, 17⟩
          = durationDays (specOrdinalDay 2025 2 17)
        ∧ TimeWindow.to_duration TimeWindow.last24Hours ⟨2025, 2, 17⟩ = durationDays 1
        ∧ TimeWindow.to_duration TimeWindow.last30Days ⟨2025, 2, 17⟩ = durationDays 30) :=
  ⟨by set_option maxRecDepth 4000 in decide,
   c9_to_duration_ordinal ⟨2025, 2, 17⟩ (by decide)⟩

/-- C10: a future-dated record (timestamp strictly later than `now`) is
counted toward every configured window with non-negative duration, its
sender enters every window's unique-identity set, and its cost is added
to the 24h per-sender gas tally. -/
theorem c10_future_record_counted (keys : StatsKeys) (windows : List (String × Int))
    (now : Int) (s : CycleState) (e : UserOp) (t : Int)
    (hp : parseRFC3339 e.timestamp = some t)
    (hfut : now < t)
    (hnd : (windows.map Prod.fst).Nodup)
    (hne : keys.userOpsName ≠ keys.gasUsedName)
    (hkeys : s.uniq.map Prod.fst = windows.map Prod.fst)
    (hpos : ∀ pd ∈ windows, 0 ≤ pd.2) :
    (∀ pd ∈ windows,
        getD2 keys.userOpsName pd.1 (processEntry keys windows now s e).stats
          = (getD2 keys.userOpsName pd.1 s.stats + 1) % U64
        ∧ e.sender ∈ getA pd.1 [] (processEntry keys windows now s e).uniq)
    ∧ getA e.sender 0 (processEntry keys windows now s e).gasUsage
        = (getA e.sender 0 s.gasUsage + e.gas_used) % U64 := by
  constructor
  · intro pd hpd
    have hin : now - pd.2 ≤ t := by
      have := hpos pd hpd
      omega
    have hkey : pd.1 ∈ s.uniq.map Prod.fst := by
      rw [hkeys]
      exact List.mem_map_of_mem Prod.fst hpd
    constructor
    · rw [processEntry_stats keys windows now s e pd.1 pd.2 t hp hpd hnd hne, if_pos hin]
    · rw [processEntry_uniq keys windows now s e pd.1 pd.2 t hp hpd hnd hkey, if_pos hin]
      unfold insertList
      split
      · assumption
      · exact List.mem_cons_self _ _
  · rw [processEntry_gas keys windows now s e t hp,
      if_pos (by simp only [durationDays]; omega), getA_updA, if_pos rfl]

/-- Witness for C10: a record one hour in the future counts toward the
24h window, its sender is in the unique set, and its gas enters the
tally. -/
theorem c10_future_record_counted_witness :
    (∀ pd ∈ [(("24h", 86400) : String × Int)],
        getD2 "USER_OPS" pd.1
            ((processEntry ⟨"USER_OPS", "GAS_USED", "UNIQUE_ACTIVE"⟩ [("24h", 86400)] 0
              (initCycle ⟨"USER_OPS", "GAS_USED", "UNIQUE_ACTIVE"⟩ [("24h", 86400)])
              ⟨"0xAA", 100, "1970-01-01T01:00:00Z"⟩).stats)
          = (getD2 "USER_OPS" pd.1
              (initCycle ⟨"USER_OPS", "GAS_USED", "UNIQUE_ACTIVE"⟩
                [("24h", 86400)]).stats + 1) % U64
        ∧ "0xAA" ∈ getA pd.1 []
            (processEntry ⟨"USER_OPS", "GAS_USED", "UNIQUE_ACTIVE"⟩ [("24h", 86400)] 0
              (initCycle ⟨"USER_OPS", "GAS_USED", "UNIQUE_ACTIVE"⟩ [("24h", 86400)])
              ⟨"0xAA", 100, "1970-01-01T01:00:00Z"⟩).uniq)
    ∧ getA "0xAA" 0
        (processEntry ⟨"USER_OPS", "GAS_USED", "UNIQUE_ACTIVE"⟩ [("24h", 86400)] 0
          (initCycle ⟨"USER_OPS", "GAS_USED", "UNIQUE_ACTIVE"⟩ [("24h", 86400)])
          ⟨"0xAA", 100, "1970-01-01T01:00:00Z"⟩).gasUsage
      = (getA "0xAA" 0
          (initCycle ⟨"USER_OPS", "GAS_USED", "UNIQUE_ACTIVE"⟩
            [("24h", 86400)]).gasUsage + 100) % U64 :=
  c10_future_record_counted ⟨"USER_OPS", "GAS_USED", "UNIQUE_ACTIVE"⟩ [("24h", 86400)] 0 _
    ⟨"0xAA", 100, "1970-01-01T01:00:00Z"⟩ 3600
    (by decide) (by decide) (by decide) (by decide) (by decide) (by decide)
